import Mathlib

/-!
Verification of the Denicx AI CRM core (examples/ai_crm/main.go) against its
natural-language specification.

The Go program is shallowly embedded: records become Lean structures, the
PocketBase record store becomes an explicit in-memory `Store` threaded through
the operations, and fallible store operations become `Except`-returning
functions with explicit fault injection (a `Faults` record says which store
operation fails during a run, modelling the external store's read/write
errors).  All definitions are translated from the Go source, keeping its
names.
-/

deriving instance DecidableEq for Except

namespace AICRM

/-- The `agent_state` JSON snapshot written by `runLeadAgent`. -/
structure AgentState where
  last_action : String
  last_message : String
  old_stage : String
  new_stage : String
deriving Repr, DecidableEq

/-- A record of the `crm_leads` collection (fields used by the core). -/
structure Lead where
  id : String
  name : String := ""
  email : String := ""
  company : String := ""
  account : String := ""
  job_title : String := ""
  phone : String := ""
  linkedin : String := ""
  stage : String := ""
  score : Int := 0
  updated : Nat := 0
  agent_state : Option AgentState := none
deriving Repr, DecidableEq

/-- A record of the `crm_deals` collection (fields used by the core). -/
structure Deal where
  id : String
  title : String := ""
  lead : String := ""
  stage : String := ""
deriving Repr, DecidableEq

/-- A record of the `crm_activities` collection (fields used by the core);
the `metadata` JSON object is flattened into its three fields. -/
structure Activity where
  id : String
  typ : String := ""
  lead : String := ""
  content : String := ""
  metaAction : String := ""
  metaFrom : String := ""
  metaTo : String := ""
deriving Repr, DecidableEq

/-- A record of the `crm_accounts` collection (fields used by the core). -/
structure Account where
  id : String
  name : String := ""
  domain : String := ""
deriving Repr, DecidableEq

/-- The record store state: the four collections, plus a counter used both to
mint fresh record ids and as the autodate clock for the `updated` field. -/
structure Store where
  accounts : List Account := []
  leads : List Lead := []
  deals : List Deal := []
  activities : List Activity := []
  clock : Nat := 0
deriving Repr, DecidableEq

/-- Go `unicode.IsSpace` on the characters relevant here (Latin-1 range),
as a kernel-computable predicate. -/
def goIsSpace (c : Char) : Bool :=
  c == ' ' || c == '\t' || c == '\n' || c == '\u000B' || c == '\u000C' ||
  c == '\r' || c == '\u0085' || c == '\u00A0'

/-- Go `strings.TrimSpace`, computed on the character list so that it
reduces in the kernel. -/
def goTrim (s : String) : String :=
  String.mk (((s.data.dropWhile goIsSpace).reverse.dropWhile goIsSpace).reverse)

/-- ASCII lower-casing of one character (the inputs relevant here are
ASCII; Go `strings.ToLower` restricted to that range). -/
def goToLowerChar (c : Char) : Char :=
  if 65 ≤ c.toNat && c.toNat ≤ 90 then Char.ofNat (c.toNat + 32) else c

/-- Go `strings.ToLower` (ASCII range). -/
def goToLower (s : String) : String :=
  String.mk (s.data.map goToLowerChar)

def listIsPrefix : List Char → List Char → Bool
  | [], _ => true
  | _ :: _, [] => false
  | a :: as, b :: bs => a == b && listIsPrefix as bs

/-- Go `strings.TrimPrefix`. -/
def goTrimPrefix (s p : String) : String :=
  if listIsPrefix p.data s.data then String.mk (s.data.drop p.data.length) else s

/-- Worker for `goSplitOn`: fuel-driven scan (fuel exceeding the input
length makes the fuel-exhausted branch unreachable). -/
def splitOnAux (sep : List Char) : Nat → List Char → List Char → List (List Char)
  | 0, l, acc => [acc.reverse ++ l]
  | fuel + 1, l, acc =>
    if listIsPrefix sep l then
      acc.reverse :: splitOnAux sep fuel (l.drop sep.length) []
    else
      match l with
      | [] => [acc.reverse]
      | c :: rest => splitOnAux sep fuel rest (c :: acc)

/-- Go `strings.Split` (also the behaviour of `url` separator scans):
split on each left-to-right non-overlapping occurrence of `sep`. -/
def goSplitOn (s sep : String) : List String :=
  if sep.data.isEmpty then [s]
  else (splitOnAux sep.data (s.data.length + 1) s.data []).map String.mk

/-- Join with a separator (Go `strings.Join`). -/
def goJoin (sep : String) : List String → String
  | [] => ""
  | [x] => x
  | x :: xs => x ++ sep ++ goJoin sep xs

/-- Go `safe`: trim, substituting the neutral placeholder for blank input. -/
def safe (s : String) : String :=
  let s := goTrim s
  if s = "" then "there" else s

/-- Result quadruple of `planNextStep`. -/
structure PlanStep where
  action : String
  message : String
  newStage : String
  activityType : String
deriving Repr, DecidableEq

/-- Go `planNextStep`: the pure stage-transition planner.  The `lead`
argument is only read for its `name` and `company` (message templating). -/
def planNextStep (lead : Lead) (stage : String) : PlanStep :=
  let name := lead.name
  let company := lead.company
  match stage with
  | "new" =>
      { action := "draft_outreach"
        message := "Hi " ++ safe name ++ ",\n\nI noticed " ++ safe company ++
          " and thought it might be worth a quick chat. Are you open to a 15-min call this week?\n\nBest,\nYou"
        newStage := "outreached", activityType := "outreach_email" }
  | "outreached" =>
      { action := "follow_up"
        message := "Follow up with " ++ safe name ++ " at " ++ safe company ++
          ". Ask 2-3 qualifying questions and propose next step."
        newStage := "qualified", activityType := "note" }
  | "replied" =>
      { action := "qualify"
        message := safe name ++ " replied. Capture pain points, budget, timeline and move to qualified."
        newStage := "qualified", activityType := "note" }
  | "qualified" =>
      { action := "proposal"
        message := "Create a proposal for " ++ safe name ++ " (" ++ safe company ++ ") and send it."
        newStage := "proposal", activityType := "note" }
  | "proposal" =>
      { action := "close"
        message := "If no blockers, move " ++ safe name ++ " to won and log the reason."
        newStage := "won", activityType := "status_change" }
  | _ =>
      { action := "noop", message := "No action planned."
        newStage := stage, activityType := "note" }

/-- A throwaway lead record used to instantiate universally quantified
theorems at a concrete input. -/
def lead0 : Lead :=
  { id := "L1", name := "Ada Lovelace", email := "ada@example.test",
    company := "Acme AI", stage := "new" }

/-- C1: for the five mapped stages `planNextStep` returns exactly the
(action, nextStage, activityType) tuple of the spec's table, and on every
other stage value it returns the `noop` action, the fixed message, the input
stage unchanged, and activity type `note` (totality: it never fails). -/
theorem planNextStep_spec (lead : Lead) (stage : String) :
    ((planNextStep lead "new").action = "draft_outreach" ∧
      (planNextStep lead "new").newStage = "outreached" ∧
      (planNextStep lead "new").activityType = "outreach_email") ∧
    ((planNextStep lead "outreached").action = "follow_up" ∧
      (planNextStep lead "outreached").newStage = "qualified" ∧
      (planNextStep lead "outreached").activityType = "note") ∧
    ((planNextStep lead "replied").action = "qualify" ∧
      (planNextStep lead "replied").newStage = "qualified" ∧
      (planNextStep lead "replied").activityType = "note") ∧
    ((planNextStep lead "qualified").action = "proposal" ∧
      (planNextStep lead "qualified").newStage = "proposal" ∧
      (planNextStep lead "qualified").activityType = "note") ∧
    ((planNextStep lead "proposal").action = "close" ∧
      (planNextStep lead "proposal").newStage = "won" ∧
      (planNextStep lead "proposal").activityType = "status_change") ∧
    (stage ≠ "new" → stage ≠ "outreached" → stage ≠ "replied" →
      stage ≠ "qualified" → stage ≠ "proposal" →
      planNextStep lead stage =
        { action := "noop", message := "No action planned."
          newStage := stage, activityType := "note" }) := by
  refine ⟨⟨rfl, rfl, rfl⟩, ⟨rfl, rfl, rfl⟩, ⟨rfl, rfl, rfl⟩,
    ⟨rfl, rfl, rfl⟩, ⟨rfl, rfl, rfl⟩, ?_⟩
  intro h1 h2 h3 h4 h5
  unfold planNextStep
  split <;> simp_all

/-- Witness for `planNextStep_spec` at the unmapped stage `"won"`. -/
theorem planNextStep_spec_witness :
    planNextStep lead0 "won" =
      { action := "noop", message := "No action planned."
        newStage := "won", activityType := "note" } := by
  have h := planNextStep_spec lead0 "won"
  exact h.2.2.2.2.2 (by decide) (by decide) (by decide) (by decide) (by decide)

/-- Fault injection for the store operations performed by one
`runLeadAgent` call: a `true` field makes the corresponding store
read/write fail (modelling the external store's error returns). -/
structure Faults where
  findLead : Bool := false
  findDeal : Bool := false
  saveDeal : Bool := false
  saveActivity : Bool := false
  saveLead : Bool := false
  findDealMark : Bool := false
  saveDealMark : Bool := false
deriving Repr, DecidableEq

/-- The all-succeed store. -/
def noFaults : Faults := {}

/-- Go `ensureDealForLead`: if a deal for the lead already exists do nothing,
otherwise create one in stage `qualification`; returns whether one was
created.  (`FindCollectionByNameOrId` failures are folded into the save
fault.) -/
def ensureDealForLead (f : Faults) (st : Store) (lead : Lead) :
    Except String (Bool × Store) :=
  if f.findDeal then .error "findDeal failed" else
  match st.deals.find? (fun d => d.lead == lead.id) with
  | some _ => .ok (false, st)
  | none =>
      if f.saveDeal then .error "saveDeal failed" else
      let rec_ : Deal :=
        { id := "deal" ++ toString st.clock
          title := safe lead.company ++ " / New deal"
          lead := lead.id, stage := "qualification" }
      .ok (true, { st with deals := st.deals ++ [rec_], clock := st.clock + 1 })

/-- Go `createActivity`: append a new activity record, returning its id.
(`FindCollectionByNameOrId` failures are folded into the save fault.) -/
def createActivity (f : Faults) (st : Store) (lead : Lead)
    (typ content mAction mFrom mTo : String) :
    Except String (String × Store) :=
  if f.saveActivity then .error "saveActivity failed" else
  let rid := "act" ++ toString st.clock
  .ok (rid,
    { st with
      activities := st.activities ++
        [{ id := rid, typ := typ, lead := lead.id, content := content,
           metaAction := mAction, metaFrom := mFrom, metaTo := mTo }]
      clock := st.clock + 1 })

/-- `app.Save` on an already-loaded lead record: replace it by id and stamp
the autodate `updated` field. -/
def saveLeadRecord (st : Store) (l : Lead) : Store :=
  { st with
    leads := st.leads.map (fun x => if x.id == l.id then { l with updated := st.clock } else x)
    clock := st.clock + 1 }

/-- Go `markDealStage`: find the first deal of the lead and set its stage;
errors if the find or the save fails (or no deal exists). -/
def markDealStage (f : Faults) (st : Store) (leadId stage : String) :
    Except String Store :=
  if f.findDealMark then .error "findDealMark failed" else
  match st.deals.find? (fun d => d.lead == leadId) with
  | none => .error "sql: no rows in result set"
  | some d =>
      if f.saveDealMark then .error "saveDealMark failed" else
      .ok { st with
            deals := st.deals.map (fun x => if x.id == d.id then { x with stage := stage } else x)
            clock := st.clock + 1 }

/-- The JSON result object of one agent run (the `meta` map is dropped; its
contents duplicate other fields). -/
structure AgentRunResult where
  leadId : String
  oldStage : String
  newStage : String
  action : String
  message : String
  activityId : String
  dealCreated : Bool
deriving Repr, DecidableEq

/-- Go `runLeadAgent`: load the lead, short-circuit on terminal stages, plan
the next step, conditionally ensure a deal, write an activity, persist the
lead, and — with the error deliberately discarded, as in the source's
`_ = markDealStage(...)` — mark the deal won when the new stage is won. -/
def runLeadAgent (f : Faults) (st : Store) (leadId : String) :
    Except String (AgentRunResult × Store) :=
  if f.findLead then .error "findLead failed" else
  match st.leads.find? (fun l => l.id == leadId) with
  | none => .error "sql: no rows in result set"
  | some lead =>
      let oldStage := if lead.stage = "" then "new" else lead.stage
      if oldStage = "won" ∨ oldStage = "lost" then
        .ok ({ leadId := leadId, oldStage := oldStage, newStage := oldStage,
               action := "noop", message := "Lead already finalized.",
               activityId := "", dealCreated := false }, st)
      else
        let p := planNextStep lead oldStage
        let step1 : Except String (Bool × Store) :=
          if p.newStage = "qualified" ∨ p.newStage = "proposal" ∨ p.newStage = "won" then
            ensureDealForLead f st lead
          else .ok (false, st)
        match step1 with
        | .error e => .error e
        | .ok (dealCreated, st1) =>
          match createActivity f st1 lead p.activityType p.message p.action oldStage p.newStage with
          | .error e => .error e
          | .ok (activityId, st2) =>
            if f.saveLead then .error "saveLead failed" else
            let lead2 : Lead :=
              { lead with
                stage := p.newStage,
                agent_state := some
                  { last_action := p.action, last_message := p.message,
                    old_stage := oldStage, new_stage := p.newStage } }
            let st3 := saveLeadRecord st2 lead2
            let st4 :=
              if p.newStage = "won" then
                match markDealStage f st3 leadId "won" with
                | .error _ => st3
                | .ok s => s
              else st3
            .ok ({ leadId := lead.id, oldStage := oldStage, newStage := p.newStage,
                   action := p.action, message := p.message, activityId := activityId,
                   dealCreated := dealCreated }, st4)

/-- C3: on a lead already in a terminal stage (`won` or `lost`) the agent
performs zero writes — the store is returned unchanged — and the result is a
`noop` with `oldStage = newStage =` the current stage; hence a second
invocation returns exactly the same result (idempotence).  Stated for any
fault assignment whose lead lookup succeeds, showing no other store
operation is even attempted. -/
theorem runLeadAgent_terminal_noop (f : Faults) (st : Store) (id : String)
    (lead : Lead)
    (hfind : st.leads.find? (fun l => l.id == id) = some lead)
    (hread : f.findLead = false)
    (hterm : lead.stage = "won" ∨ lead.stage = "lost") :
    runLeadAgent f st id =
      .ok ({ leadId := id, oldStage := lead.stage, newStage := lead.stage,
             action := "noop", message := "Lead already finalized.",
             activityId := "", dealCreated := false }, st) ∧
    (runLeadAgent f st id).bind (fun p => runLeadAgent f p.2 id) =
      runLeadAgent f st id := by
  have hne : lead.stage ≠ "" := by rcases hterm with h | h <;> simp [h]
  have hrun : runLeadAgent f st id =
      .ok ({ leadId := id, oldStage := lead.stage, newStage := lead.stage,
             action := "noop", message := "Lead already finalized.",
             activityId := "", dealCreated := false }, st) := by
    unfold runLeadAgent
    rw [hread, hfind]
    simp only [Bool.false_eq_true, if_false]
    rw [if_neg hne]
    rcases hterm with h | h <;> simp [h]
  exact ⟨hrun, by rw [hrun]; simp [Except.bind]; rw [hrun]⟩

/-- Witness for `runLeadAgent_terminal_noop`: a one-lead store in stage
`won`. -/
theorem runLeadAgent_terminal_noop_witness :
    runLeadAgent noFaults
        { leads := [{ id := "W1", name := "W", stage := "won" }] } "W1" =
      .ok ({ leadId := "W1", oldStage := "won", newStage := "won",
             action := "noop", message := "Lead already finalized.",
             activityId := "", dealCreated := false },
           { leads := [{ id := "W1", name := "W", stage := "won" }] }) := by
  exact (runLeadAgent_terminal_noop noFaults
    { leads := [{ id := "W1", name := "W", stage := "won" }] } "W1"
    { id := "W1", name := "W", stage := "won" }
    (by decide) rfl (Or.inl rfl)).1

/-- C10: a lead whose stored `stage` is the empty string is treated as
`new`: the terminal branch is not taken, the `new → outreached` transition is
planned, and on success the lead is persisted with stage `outreached`, one
activity is appended, no deal is touched, and the result's `oldStage` is
`"new"`. -/
theorem runLeadAgent_empty_stage (st : Store) (id : String) (lead : Lead)
    (hfind : st.leads.find? (fun l => l.id == id) = some lead)
    (hstage : lead.stage = "") :
    ∃ r st', runLeadAgent noFaults st id = .ok (r, st') ∧
      r.oldStage = "new" ∧ r.newStage = "outreached" ∧
      r.action = "draft_outreach" ∧
      (∃ l' ∈ st'.leads, l'.id = id ∧ l'.stage = "outreached") ∧
      (∀ l' ∈ st'.leads, l'.id = id → l'.stage = "outreached") ∧
      st'.activities.length = st.activities.length + 1 ∧
      st'.deals = st.deals := by
  have hbeq := List.find?_some hfind
  have hid : lead.id = id := by simpa using hbeq
  have hmem : lead ∈ st.leads := List.mem_of_find?_eq_some hfind
  unfold runLeadAgent
  rw [hfind]
  simp only [hstage, planNextStep, createActivity, saveLeadRecord, noFaults,
    reduceIte, Bool.false_eq_true, if_false, String.reduceEq, or_self,
    reduceCtorEq, or_false, false_or]
  refine ⟨_, _, rfl, rfl, rfl, rfl, ?_, ?_, ?_, rfl⟩
  · -- the saved copy of the lead is in the new store with stage outreached
    exact ⟨_, List.mem_map.2 ⟨lead, hmem, rfl⟩, by simp [hid], by simp⟩
  · -- every lead bearing this id in the new store has stage outreached
    intro l' hl' hl'id
    simp only [List.mem_map] at hl'
    obtain ⟨x, -, hx⟩ := hl'
    by_cases hxid : (x.id == lead.id) = true
    · rw [if_pos hxid] at hx
      simp [← hx]
    · rw [if_neg hxid] at hx
      subst hx
      exact absurd (by simp [hl'id, hid]) hxid
  · simp

/-- Witness for `runLeadAgent_empty_stage`: a one-lead store whose lead has
an unset stage. -/
theorem runLeadAgent_empty_stage_witness :
    ∃ r st', runLeadAgent noFaults { leads := [{ id := "E1", name := "E" }] } "E1" = .ok (r, st') ∧
      r.oldStage = "new" ∧ r.newStage = "outreached" ∧
      r.action = "draft_outreach" ∧
      (∃ l' ∈ st'.leads, l'.id = "E1" ∧ l'.stage = "outreached") ∧
      (∀ l' ∈ st'.leads, l'.id = "E1" → l'.stage = "outreached") ∧
      st'.activities.length = 0 + 1 ∧
      st'.deals = ([] : List Deal) :=
  runLeadAgent_empty_stage { leads := [{ id := "E1", name := "E" }] } "E1"
    { id := "E1", name := "E" } (by decide) rfl

/-- Projection: the store after one agent run (unchanged if the run fails). -/
def stepStore (f : Faults) (id : String) (st : Store) : Store :=
  match runLeadAgent f st id with
  | .ok (_, s) => s
  | .error _ => st

/-- Projection: the result object of one agent run, if it succeeds. -/
def stepResult (f : Faults) (id : String) (st : Store) : Option AgentRunResult :=
  match runLeadAgent f st id with
  | .ok (r, _) => some r
  | .error _ => none

/-- The store after `k` successive agent runs on the same lead. -/
def stepsStore (f : Faults) (id : String) (st : Store) : Nat → Store
  | 0 => st
  | k + 1 => stepStore f id (stepsStore f id st k)

/-- C2 (amended): five successive successful agent runs on a fresh `new`
lead take it `new → outreached → qualified → proposal → won` in the first
four runs; the fifth run is a no-op that changes nothing.  Exactly one deal
is created — on run 2, whose resulting stage is `qualified`, in stage
`qualification` — exactly four activities are written, and the deal's stage
equals `won` already after the fourth run. -/
theorem runLeadAgent_five_runs (acc : List Account) (lead : Lead) (n : Nat)
    (hstage : lead.stage = "new") :
    (stepResult noFaults lead.id
        (stepsStore noFaults lead.id
          { accounts := acc, leads := [lead], clock := n } 0)).map
        (fun r => (r.oldStage, r.newStage, r.dealCreated)) =
      some ("new", "outreached", false) ∧
    (stepResult noFaults lead.id
        (stepsStore noFaults lead.id
          { accounts := acc, leads := [lead], clock := n } 1)).map
        (fun r => (r.oldStage, r.newStage, r.dealCreated)) =
      some ("outreached", "qualified", true) ∧
    (stepsStore noFaults lead.id
        { accounts := acc, leads := [lead], clock := n } 2).deals.map (fun d => d.stage) =
      ["qualification"] ∧
    (stepResult noFaults lead.id
        (stepsStore noFaults lead.id
          { accounts := acc, leads := [lead], clock := n } 2)).map
        (fun r => (r.oldStage, r.newStage, r.dealCreated)) =
      some ("qualified", "proposal", false) ∧
    (stepResult noFaults lead.id
        (stepsStore noFaults lead.id
          { accounts := acc, leads := [lead], clock := n } 3)).map
        (fun r => (r.oldStage, r.newStage, r.dealCreated)) =
      some ("proposal", "won", false) ∧
    (stepsStore noFaults lead.id
        { accounts := acc, leads := [lead], clock := n } 4).deals.map (fun d => d.stage) =
      ["won"] ∧
    (stepsStore noFaults lead.id
        { accounts := acc, leads := [lead], clock := n } 4).activities.length = 4 ∧
    (stepResult noFaults lead.id
        (stepsStore noFaults lead.id
          { accounts := acc, leads := [lead], clock := n } 4)).map
        (fun r => (r.action, r.oldStage, r.newStage)) =
      some ("noop", "won", "won") ∧
    stepsStore noFaults lead.id { accounts := acc, leads := [lead], clock := n } 5 =
      stepsStore noFaults lead.id { accounts := acc, leads := [lead], clock := n } 4 := by
  obtain ⟨lid, lname, lemail, lcompany, lacct, ljob, lphone, llink, lstage,
    lscore, lupd, lagst⟩ := lead
  simp only at hstage
  subst hstage
  refine ⟨?_, ?_, ?_, ?_, ?_, ?_, ?_, ?_, ?_⟩ <;>
    simp [stepsStore, stepStore, stepResult, runLeadAgent, planNextStep,
      ensureDealForLead, createActivity, saveLeadRecord, markDealStage, noFaults]

/-- Counterexample to C2 as stated: on a concrete lead starting in `new`,
five successful runs create four activities, not five, and the deal's stage
is already `won` after the fourth run, not only after the fifth. -/
theorem runLeadAgent_five_runs_counterexample :
    (stepsStore noFaults "L1" { leads := [lead0] } 5).activities.length = 4 ∧
    (stepsStore noFaults "L1" { leads := [lead0] } 5).activities.length ≠ 5 ∧
    (stepsStore noFaults "L1" { leads := [lead0] } 4).deals.map
        (fun d => d.stage) = ["won"] := by
  decide

/-- Witness for `runLeadAgent_five_runs` on a concrete fresh lead. -/
theorem runLeadAgent_five_runs_witness :
    (stepsStore noFaults lead0.id { leads := [lead0] } 4).activities.length = 4 ∧
    (stepsStore noFaults lead0.id { leads := [lead0] } 4).deals.map
        (fun d => d.stage) = ["won"] := by
  have h := runLeadAgent_five_runs [] lead0 0 rfl
  exact ⟨h.2.2.2.2.2.2.1, h.2.2.2.2.2.1⟩

/-- C4 (amended): every storage failure during an agent run is surfaced as
an error to the caller EXCEPT a failure of the final step that sets the
lead's deal stage to `won`, whose error the source deliberately discards
(`_ = markDealStage(...)`): a run in which only that step fails still
returns success, with result stage `won` but the deal left un-won.  Stated
on a lead in stage `proposal` (so the planned stage is `won`) with no deal
yet. -/
theorem runLeadAgent_error_surfacing (st : Store) (id : String) (lead : Lead)
    (hfind : st.leads.find? (fun l => l.id == id) = some lead)
    (hstage : lead.stage = "proposal")
    (hdeal : st.deals.find? (fun d => d.lead == id) = none) :
    runLeadAgent { findLead := true } st id = .error "findLead failed" ∧
    (runLeadAgent { findDeal := true } st id).isOk = false ∧
    (runLeadAgent { saveDeal := true } st id).isOk = false ∧
    (runLeadAgent { saveActivity := true } st id).isOk = false ∧
    (runLeadAgent { saveLead := true } st id).isOk = false ∧
    (runLeadAgent { findDealMark := true } st id).isOk = true ∧
    (∃ r st', runLeadAgent { saveDealMark := true } st id = .ok (r, st') ∧
      r.newStage = "won" ∧
      (st'.deals.find? (fun d => d.lead == id)).map (fun d => d.stage) =
        some "qualification") := by
  have hbeq := List.find?_some hfind
  have hid : lead.id = id := by simpa using hbeq
  subst hid
  refine ⟨rfl, ?_, ?_, ?_, ?_, ?_, ?_⟩
  · unfold runLeadAgent
    rw [hfind]
    simp [hstage, planNextStep, ensureDealForLead, Except.isOk, Except.toBool]
  · unfold runLeadAgent
    rw [hfind]
    simp [hstage, planNextStep, ensureDealForLead, hdeal, Except.isOk, Except.toBool]
  · unfold runLeadAgent
    rw [hfind]
    simp [hstage, planNextStep, ensureDealForLead, hdeal, createActivity,
      Except.isOk, Except.toBool]
  · unfold runLeadAgent
    rw [hfind]
    simp [hstage, planNextStep, ensureDealForLead, hdeal, createActivity,
      Except.isOk, Except.toBool]
  · unfold runLeadAgent
    rw [hfind]
    simp [hstage, planNextStep, ensureDealForLead, hdeal, createActivity,
      saveLeadRecord, markDealStage, Except.isOk, Except.toBool]
  · unfold runLeadAgent
    rw [hfind]
    simp only [hstage, planNextStep, ensureDealForLead, hdeal, createActivity,
      saveLeadRecord, markDealStage, noFaults, reduceIte, Bool.false_eq_true,
      if_false, String.reduceEq, or_self, reduceCtorEq, or_false, false_or,
      or_true, true_or, if_true]
    refine ⟨_, _, rfl, rfl, ?_⟩
    rw [List.find?_append, hdeal]
    simp
    refine ⟨_, Or.inr ⟨fun x hx => ?_, rfl⟩, rfl⟩
    have hx2 := List.find?_eq_none.mp hdeal x hx
    simpa using hx2

/-- A concrete lead in stage `proposal`, for instantiating the error-path
theorems. -/
def leadP : Lead := { id := "P1", name := "Pat", company := "Globex", stage := "proposal" }

/-- Witness for `runLeadAgent_error_surfacing` on a concrete store. -/
theorem runLeadAgent_error_surfacing_witness :
    runLeadAgent { findLead := true } { leads := [leadP] } "P1" =
      .error "findLead failed" ∧
    (runLeadAgent { saveLead := true } { leads := [leadP] } "P1").isOk = false ∧
    (runLeadAgent { saveDealMark := true } { leads := [leadP] } "P1").isOk = true := by
  have h := runLeadAgent_error_surfacing { leads := [leadP] } "P1" leadP
    (by decide) rfl rfl
  refine ⟨h.1, h.2.2.2.2.1, ?_⟩
  obtain ⟨r, st', hrun, -, -⟩ := h.2.2.2.2.2.2
  rw [hrun]
  rfl

/-- Counterexample to C4 as stated: on a concrete run whose resulting stage
is `won`, the store write that should set the deal's stage to `won` fails,
yet the run reports success (no error is returned to the caller) and the
deal's stage remains `qualification`. -/
theorem runLeadAgent_error_surfacing_counterexample :
    (runLeadAgent { saveDealMark := true } { leads := [leadP] } "P1").isOk = true ∧
    (stepResult { saveDealMark := true } "P1" { leads := [leadP] }).map
        (fun r => r.newStage) = some "won" ∧
    (stepStore { saveDealMark := true } "P1" { leads := [leadP] }).deals.map
        (fun d => d.stage) = ["qualification"] := by
  decide

/-- The batch runner's selection filter `stage != 'won' && stage != 'lost'`. -/
def eligible (l : Lead) : Bool :=
  l.stage != "won" && l.stage != "lost"

/-- Stable insertion (descending by `updated`) for the model of the store's
`-updated` sort order. -/
def insertDescByUpdated (x : Lead) : List Lead → List Lead
  | [] => [x]
  | y :: ys => if x.updated < y.updated then y :: insertDescByUpdated x ys else x :: y :: ys

/-- Stable sort, most-recently-updated first: the store's `-updated` order. -/
def sortDescByUpdated : List Lead → List Lead
  | [] => []
  | x :: xs => insertDescByUpdated x (sortDescByUpdated xs)

/-- The store's `FindRecordsByFilter(leads, "stage != 'won' && stage != 'lost'",
"-updated", lim, 0)` call. -/
def pendingLeads (st : Store) (lim : Nat) : List Lead :=
  (sortDescByUpdated (st.leads.filter eligible)).take lim

/-- The batch runner's per-lead loop: run the agent on each id in turn,
skipping (only logging) failures and counting successes.  `f` gives the
fault assignment of each lead's run. -/
def processLoop (f : String → Faults) : Store → List String → Nat × Store
  | st, [] => (0, st)
  | st, i :: rest =>
    match runLeadAgent (f i) st i with
    | .error _ => processLoop f st rest
    | .ok (_, st1) =>
        let p := processLoop f st1 rest
        (p.1 + 1, p.2)

/-- Specification-side mirror of the loop that records each run's outcome
(`true` = the agent run succeeded) instead of counting. -/
def loopOutcomes (f : String → Faults) : Store → List String → List Bool
  | _, [] => []
  | st, i :: rest =>
    match runLeadAgent (f i) st i with
    | .error _ => false :: loopOutcomes f st rest
    | .ok (_, st1) => true :: loopOutcomes f st1 rest

/-- Go `runAgentForPendingLeads`: default the limit to 5, select the pending
leads, and process them. -/
def runAgentForPendingLeads (f : String → Faults) (st : Store) (limit : Int) :
    Nat × Store :=
  let lim : Nat := if limit ≤ 0 then 5 else limit.toNat
  processLoop f st ((pendingLeads st lim).map (fun l => l.id))

lemma mem_insertDescByUpdated {z x : Lead} :
    ∀ {l : List Lead}, z ∈ insertDescByUpdated x l → z = x ∨ z ∈ l := by
  intro l
  induction l with
  | nil =>
      intro h
      simp only [insertDescByUpdated, List.mem_singleton] at h
      exact Or.inl h
  | cons y ys ih =>
      intro h
      simp only [insertDescByUpdated] at h
      split at h
      · rcases List.mem_cons.mp h with h1 | h2
        · exact Or.inr (h1 ▸ List.mem_cons_self y ys)
        · rcases ih h2 with h3 | h3
          · exact Or.inl h3
          · exact Or.inr (List.mem_cons_of_mem y h3)
      · rcases List.mem_cons.mp h with h1 | h2
        · exact Or.inl h1
        · exact Or.inr h2

lemma pairwise_insertDescByUpdated {x : Lead} {l : List Lead}
    (h : l.Pairwise (fun a b => b.updated ≤ a.updated)) :
    (insertDescByUpdated x l).Pairwise (fun a b => b.updated ≤ a.updated) := by
  induction l with
  | nil => simp [insertDescByUpdated]
  | cons y ys ih =>
      rcases List.pairwise_cons.mp h with ⟨hy, hys⟩
      simp only [insertDescByUpdated]
      split
      · refine List.pairwise_cons.mpr ⟨?_, ih hys⟩
        intro z hz
        rcases mem_insertDescByUpdated hz with rfl | hzys
        · exact le_of_lt (by assumption)
        · exact hy z hzys
      · refine List.pairwise_cons.mpr ⟨?_, h⟩
        intro z hz
        have hyx : y.updated ≤ x.updated := le_of_not_lt (by assumption)
        rcases List.mem_cons.mp hz with rfl | hzys
        · exact hyx
        · exact le_trans (hy z hzys) hyx

lemma pairwise_sortDescByUpdated (l : List Lead) :
    (sortDescByUpdated l).Pairwise (fun a b => b.updated ≤ a.updated) := by
  induction l with
  | nil => simp [sortDescByUpdated]
  | cons x xs ih => exact pairwise_insertDescByUpdated ih

lemma mem_sortDescByUpdated {z : Lead} :
    ∀ {l : List Lead}, z ∈ sortDescByUpdated l → z ∈ l := by
  intro l
  induction l with
  | nil => intro h; simp [sortDescByUpdated] at h
  | cons x xs ih =>
      intro h
      rcases mem_insertDescByUpdated h with rfl | h2
      · exact List.mem_cons_self z xs
      · exact List.mem_cons_of_mem x (ih h2)

lemma processLoop_count (f : String → Faults) :
    ∀ (ids : List String) (st : Store),
      (processLoop f st ids).1 = (loopOutcomes f st ids).count true := by
  intro ids
  induction ids with
  | nil => intro st; simp [processLoop, loopOutcomes]
  | cons i rest ih =>
      intro st
      simp only [processLoop, loopOutcomes]
      cases runLeadAgent (f i) st i with
      | error e => simp [ih st]
      | ok p => simp [ih p.2]

/-- A concrete store with ten eligible and three terminal leads, `updated`
timestamps strictly increasing, for the batch-selection example. -/
def exampleStore : Store :=
  { leads :=
      [ { id := "e1", name := "N1", stage := "new", updated := 1 },
        { id := "e2", name := "N2", stage := "outreached", updated := 2 },
        { id := "e3", name := "N3", stage := "replied", updated := 3 },
        { id := "e4", name := "N4", stage := "qualified", updated := 4 },
        { id := "e5", name := "N5", stage := "proposal", updated := 5 },
        { id := "e6", name := "N6", stage := "new", updated := 6 },
        { id := "e7", name := "N7", stage := "outreached", updated := 7 },
        { id := "e8", name := "N8", stage := "replied", updated := 8 },
        { id := "e9", name := "N9", stage := "qualified", updated := 9 },
        { id := "e10", name := "N10", stage := "proposal", updated := 10 },
        { id := "t1", name := "T1", stage := "won", updated := 11 },
        { id := "t2", name := "T2", stage := "lost", updated := 12 },
        { id := "t3", name := "T3", stage := "won", updated := 13 } ]
    clock := 100 }

/-- A fault assignment failing exactly the lead `e9`'s save. -/
def exampleFaults : String → Faults :=
  fun i => if i == "e9" then { saveLead := true } else noFaults

/-- C5: the batch runner selects at most `limit` leads (with non-positive
limits defaulted to 5), all with stage neither `won` nor `lost`, ordered
most-recently-updated first; the returned count equals the number of
per-lead agent runs that succeeded (failures are skipped, not fatal).  On
the concrete store with 10 eligible and 3 terminal leads, `runPending 5`
with no failures processes the 5 most recently updated eligible leads and
returns 5, and with one failing lead it returns 4 without aborting the
rest. -/
theorem runAgentForPendingLeads_spec (f : String → Faults) (st : Store)
    (limit : Int) :
    (∀ l ∈ pendingLeads st (if limit ≤ 0 then 5 else limit.toNat),
        l.stage ≠ "won" ∧ l.stage ≠ "lost") ∧
    (pendingLeads st (if limit ≤ 0 then 5 else limit.toNat)).length ≤
      (if limit ≤ 0 then 5 else limit.toNat) ∧
    (pendingLeads st (if limit ≤ 0 then 5 else limit.toNat)).Pairwise
      (fun a b => b.updated ≤ a.updated) ∧
    (runAgentForPendingLeads f st limit).1 =
      (loopOutcomes f st
        ((pendingLeads st (if limit ≤ 0 then 5 else limit.toNat)).map
          (fun l => l.id))).count true ∧
    (limit ≤ 0 →
      runAgentForPendingLeads f st limit = runAgentForPendingLeads f st 5) ∧
    (runAgentForPendingLeads (fun _ => noFaults) exampleStore 5).1 = 5 ∧
    (pendingLeads exampleStore 5).map (fun l => l.id) =
      ["e10", "e9", "e8", "e7", "e6"] ∧
    (runAgentForPendingLeads exampleFaults exampleStore 5).1 = 4 := by
  refine ⟨?_, ?_, ?_, ?_, ?_, by decide, by decide, by decide⟩
  · intro l hl
    have hmem : l ∈ st.leads.filter eligible :=
      mem_sortDescByUpdated ((List.take_sublist _ _).mem hl)
    have hel : eligible l = true := (List.mem_filter.mp hmem).2
    simpa [eligible, and_comm] using hel
  · simp [pendingLeads]
  · exact (pairwise_sortDescByUpdated _).sublist (List.take_sublist _ _)
  · exact processLoop_count f _ st
  · intro h
    simp [runAgentForPendingLeads, h]

/-- Witness for `runAgentForPendingLeads_spec`: the concrete batch example
extracted through the theorem. -/
theorem runAgentForPendingLeads_spec_witness :
    (runAgentForPendingLeads (fun _ => noFaults) exampleStore 5).1 = 5 ∧
    (runAgentForPendingLeads exampleFaults exampleStore 5).1 = 4 :=
  ⟨(runAgentForPendingLeads_spec (fun _ => noFaults) exampleStore 5).2.2.2.2.2.1,
   (runAgentForPendingLeads_spec exampleFaults exampleStore 5).2.2.2.2.2.2.2⟩

/-- Go `apifyLeadCandidate`. -/
structure apifyLeadCandidate where
  FullName : String := ""
  Email : String := ""
  JobTitle : String := ""
  Linkedin : String := ""
  Phone : String := ""
  CompanyName : String := ""
  CompanyWebsite : String := ""
  CompanyLinkedin : String := ""
deriving Repr, DecidableEq

/-- Valid characters of a URL scheme after the first (RFC 3986, as enforced
by Go net/url's `getScheme`). -/
def validSchemeChar (c : Char) : Bool :=
  c.isAlpha || c.isDigit || c == '+' || c == '-' || c == '.'

def validScheme (s : String) : Bool :=
  match s.data with
  | [] => false
  | c :: rest => c.isAlpha && rest.all validSchemeChar

/-- Modelled fragment of Go net/url's `Parse` followed by `URL.Hostname`,
for URLs of the shape `scheme://[userinfo@]host[:port][/path?query#frag]`:
returns the hostname, or `none` on parse failure (bad scheme, bracketed or
space-containing host section, non-numeric port).  IPv6 bracket hosts and
percent-escapes are outside the modelled fragment. -/
def urlParseHost (s : String) : Option String :=
  match goSplitOn s "://" with
  | [] => none
  | [_] => none
  | scheme :: rest =>
    if validScheme scheme then
      let afterScheme := goJoin "://" rest
      let authority := String.mk (afterScheme.data.takeWhile
        (fun c => !(c == '/') && !(c == '?') && !(c == '#')))
      let hostport := (goSplitOn authority "@").getLastD ""
      if hostport.data.any (fun c => c == ' ' || c == '[' || c == ']') then none
      else
        match goSplitOn hostport ":" with
        | [] => none
        | [h] => some h
        | parts =>
          if (parts.getLastD "").data.all Char.isDigit then
            some (goJoin ":" parts.dropLast)
          else none
    else none

/-- Go `domainFromWebsite`: trim, prepend `https://` when no `://` occurs,
parse as a URL, and return the lower-cased hostname with one leading
`www.` stripped; blank input and parse failures yield `""`. -/
def domainFromWebsite (site : String) : String :=
  let site := goTrim site
  if site = "" then ""
  else
    let site :=
      if (goSplitOn site "://").length == 1 then "https://" ++ site else site
    match urlParseHost site with
    | none => ""
    | some h =>
      let host := goToLower (goTrim h)
      goTrimPrefix host "www."

/-- C9: `domainFromWebsite` maps the example URL to `example.com` and the
empty string to `""`; any whitespace-only input yields `""`; an input
without `://` is parsed after prepending `https://`, and the result is the
lower-cased hostname with one leading `www.` stripped; any parse failure
yields `""`, never an error (totality is immediate from the type). -/
theorem domainFromWebsite_spec (s : String) :
    domainFromWebsite "https://www.example.com/path" = "example.com" ∧
    domainFromWebsite "" = "" ∧
    (goTrim s = "" → domainFromWebsite s = "") ∧
    (∀ h, goTrim s ≠ "" → ((goSplitOn (goTrim s) "://").length == 1) = true →
      urlParseHost ("https://" ++ goTrim s) = some h →
      domainFromWebsite s = goTrimPrefix (goToLower (goTrim h)) "www.") ∧
    (goTrim s ≠ "" → ((goSplitOn (goTrim s) "://").length == 1) = true →
      urlParseHost ("https://" ++ goTrim s) = none → domainFromWebsite s = "") ∧
    (goTrim s ≠ "" → ((goSplitOn (goTrim s) "://").length == 1) = false →
      urlParseHost (goTrim s) = none → domainFromWebsite s = "") := by
  refine ⟨by decide, by decide, ?_, ?_, ?_, ?_⟩
  · intro h
    simp [domainFromWebsite, h]
  · intro h h1 h2 h3
    simp [domainFromWebsite, h1, h2, h3]
  · intro h1 h2 h3
    simp [domainFromWebsite, h1, h2, h3]
  · intro h1 h2 h3
    simp [domainFromWebsite, h1, h2, h3]

/-- Witness for `domainFromWebsite_spec`: the prepend-scheme clause at a
concrete bare-domain input. -/
theorem domainFromWebsite_spec_witness :
    domainFromWebsite "www.shop.example" = "shop.example" := by
  have h := (domainFromWebsite_spec "www.shop.example").2.2.2.1
    "www.shop.example" (by decide) (by decide) (by decide)
  rw [h]
  decide

/-- The dedup key computed in `importApifyDubaiEcommerceCSuite`'s first
loop: lower-cased trimmed email when non-blank, otherwise the lower-cased
trimmed pair (fullName, companyName). -/
def dedupKey (c : apifyLeadCandidate) : String :=
  if goTrim c.Email ≠ "" then "email:" ++ goToLower (goTrim c.Email)
  else "name_company:" ++ goToLower (goTrim c.FullName) ++ "|" ++
    goToLower (goTrim c.CompanyName)

/-- The dedup loop of `importApifyDubaiEcommerceCSuite` (`seen` is the set
of keys already retained; a key equal to `"name_company:|"` is dropped
outright). -/
def dedupLoop (seen : List String) : List apifyLeadCandidate → List apifyLeadCandidate
  | [] => []
  | c :: rest =>
    let k := dedupKey c
    if k = "name_company:|" then dedupLoop seen rest
    else if seen.contains k then dedupLoop seen rest
    else c :: dedupLoop (k :: seen) rest

def dedupCandidates (cs : List apifyLeadCandidate) : List apifyLeadCandidate :=
  dedupLoop [] cs

/-- Go `upsertAccountByName`: find by exact name or create, deriving the
domain from the website.  (The store's own read/write failures are not
injected on the ingestion path; they are surfaced unchanged in the
source.) -/
def upsertAccountByName (st : Store) (companyName companyWebsite : String) :
    Except String (Account × Bool × Store) :=
  let companyName := goTrim companyName
  if companyName = "" then .error "missing company name"
  else
    match st.accounts.find? (fun a => a.name == companyName) with
    | some acc => .ok (acc, false, st)
    | none =>
      let rec_ : Account :=
        { id := "acc" ++ toString st.clock, name := companyName,
          domain := domainFromWebsite companyWebsite }
      .ok (rec_, true,
        { st with accounts := st.accounts ++ [rec_], clock := st.clock + 1 })

/-- The lead lookup of Go `upsertLead`: by exact trimmed email when
non-blank, else by the exact trimmed (name, company) pair. -/
def findLeadForCandidate (st : Store) (c : apifyLeadCandidate) : Option Lead :=
  if goTrim c.Email ≠ "" then
    st.leads.find? (fun l => l.email == goTrim c.Email)
  else
    st.leads.find? (fun l =>
      l.name == goTrim c.FullName && l.company == goTrim c.CompanyName)

/-- Go `upsertLead`: update the matched lead or create a fresh one
(`stage = "new"`, `score = 0`); `name`, `company` and the account reference
are always overwritten, `email` only when non-blank, and `job_title` /
`phone` / `linkedin` only when the candidate supplies a non-blank value. -/
def upsertLead (st : Store) (accountId : String) (c : apifyLeadCandidate) :
    Lead × Bool × Store :=
  match findLeadForCandidate st c with
  | some lead =>
      let lead2 : Lead :=
        { lead with
          name := goTrim c.FullName,
          email := if goTrim c.Email ≠ "" then goTrim c.Email else lead.email,
          company := goTrim c.CompanyName,
          account := accountId,
          job_title := if goTrim c.JobTitle ≠ "" then goTrim c.JobTitle else lead.job_title,
          phone := if goTrim c.Phone ≠ "" then goTrim c.Phone else lead.phone,
          linkedin := if goTrim c.Linkedin ≠ "" then goTrim c.Linkedin else lead.linkedin }
      (lead2, false, saveLeadRecord st lead2)
  | none =>
      let lead2 : Lead :=
        { id := "lead" ++ toString st.clock,
          name := goTrim c.FullName,
          email := if goTrim c.Email ≠ "" then goTrim c.Email else "",
          company := goTrim c.CompanyName,
          account := accountId,
          job_title := if goTrim c.JobTitle ≠ "" then goTrim c.JobTitle else "",
          phone := if goTrim c.Phone ≠ "" then goTrim c.Phone else "",
          linkedin := if goTrim c.Linkedin ≠ "" then goTrim c.Linkedin else "",
          stage := "new", score := 0, updated := st.clock }
      (lead2, true, { st with leads := st.leads ++ [lead2], clock := st.clock + 1 })

/-- A retained candidate that the write loop skips: blank full name or
blank company name. -/
def blankCand (c : apifyLeadCandidate) : Bool :=
  goTrim c.FullName == "" || goTrim c.CompanyName == ""

/-- The write loop of `importApifyDubaiEcommerceCSuite` over the deduped
candidates: skip blanks, upsert account then lead for the rest; returns
(createdLeads, updatedLeads, skipped) and the final store. -/
def reconcileLoop (st : Store) :
    List apifyLeadCandidate → Except String ((Nat × Nat × Nat) × Store)
  | [] => .ok ((0, 0, 0), st)
  | c :: rest =>
    if goTrim c.FullName = "" ∨ goTrim c.CompanyName = "" then
      match reconcileLoop st rest with
      | .error e => .error e
      | .ok ((cr, up, sk), st') => .ok ((cr, up, sk + 1), st')
    else
      match upsertAccountByName st c.CompanyName c.CompanyWebsite with
      | .error e => .error e
      | .ok (acc, _, st1) =>
        let u := upsertLead st1 acc.id c
        match reconcileLoop u.2.2 rest with
        | .error e => .error e
        | .ok ((cr, up, sk), st') =>
          .ok ((if u.2.1 then cr + 1 else cr, if u.2.1 then up else up + 1, sk), st')

/-- The reconciliation counts returned to the caller. -/
structure ImportCounts where
  createdLeads : Nat := 0
  updatedLeads : Nat := 0
  skipped : Nat := 0
  total : Nat := 0
deriving Repr, DecidableEq

/-- Dedup-then-write as performed by `importApifyDubaiEcommerceCSuite`
after the external fetch. -/
def reconcile (st : Store) (cs : List apifyLeadCandidate) :
    Except String (ImportCounts × Store) :=
  let ds := dedupCandidates cs
  match reconcileLoop st ds with
  | .error e => .error e
  | .ok ((cr, up, sk), st') =>
    .ok ({ createdLeads := cr, updatedLeads := up, skipped := sk,
           total := ds.length }, st')

lemma dedupLoop_sublist (cs : List apifyLeadCandidate) :
    ∀ seen, (dedupLoop seen cs).Sublist cs := by
  induction cs with
  | nil => intro seen; simp [dedupLoop]
  | cons c rest ih =>
      intro seen
      simp only [dedupLoop]
      split
      · exact (ih seen).cons c
      · split
        · exact (ih seen).cons c
        · exact (ih _).cons₂ c

lemma dedupLoop_keys (cs : List apifyLeadCandidate) :
    ∀ seen, ((dedupLoop seen cs).map dedupKey).Nodup ∧
      ∀ k ∈ (dedupLoop seen cs).map dedupKey, k ∉ seen := by
  induction cs with
  | nil => intro seen; simp [dedupLoop]
  | cons c rest ih =>
      intro seen
      simp only [dedupLoop]
      split
      · exact ih seen
      · split
        · exact ih seen
        · rename_i hempty hseen
          obtain ⟨hnodup, hnotin⟩ := ih (dedupKey c :: seen)
          refine ⟨List.nodup_cons.mpr ⟨?_, hnodup⟩, ?_⟩
          · intro hmem
            exact (hnotin _ hmem) (List.mem_cons_self _ _)
          · intro k hk
            simp only [List.map_cons, List.mem_cons] at hk
            rcases hk with rfl | hk
            · intro hc
              exact hseen (List.contains_iff_exists_mem_beq.mpr
                ⟨_, hc, by simp⟩)
            · intro hc
              exact (hnotin k hk) (List.mem_cons_of_mem _ hc)

lemma dedupLoop_first_occurrence {c : apifyLeadCandidate}
    (cs : List apifyLeadCandidate) :
    ∀ seen, c ∈ cs → dedupKey c ≠ "name_company:|" →
      ¬ seen.contains (dedupKey c) = true →
      dedupKey c ∈ (dedupLoop seen cs).map dedupKey := by
  induction cs with
  | nil => intro seen h; simp at h
  | cons d rest ih =>
      intro seen hmem hne hnotseen
      simp only [dedupLoop]
      rcases List.mem_cons.mp hmem with rfl | hmem2
      · rw [if_neg hne, if_neg hnotseen]
        simp
      · split
        · exact ih seen hmem2 hne hnotseen
        · split
          · rename_i hdseen
            exact ih seen hmem2 hne hnotseen
          · by_cases hk : dedupKey c = dedupKey d
            · simp [hk]
            · refine List.mem_cons_of_mem _ (ih _ hmem2 hne ?_)
              intro hcont
              rcases List.contains_iff_exists_mem_beq.mp hcont with ⟨a, ha, hbeq⟩
              rcases List.mem_cons.mp ha with rfl | ha2
              · exact hk (by simpa using hbeq)
              · exact hnotseen (List.contains_iff_exists_mem_beq.mpr ⟨a, ha2, hbeq⟩)

lemma dedupLoop_no_empty_key {c : apifyLeadCandidate}
    (cs : List apifyLeadCandidate) :
    ∀ seen, c ∈ dedupLoop seen cs → dedupKey c ≠ "name_company:|" := by
  induction cs with
  | nil => intro seen h; simp [dedupLoop] at h
  | cons d rest ih =>
      intro seen h
      simp only [dedupLoop] at h
      split at h
      · exact ih seen h
      · split at h
        · exact ih seen h
        · rcases List.mem_cons.mp h with rfl | h2
          · assumption
          · exact ih _ h2

lemma reconcileLoop_counts (ds : List apifyLeadCandidate) :
    ∀ st, ∃ cr up sk st',
      reconcileLoop st ds = .ok ((cr, up, sk), st') ∧
      sk = (ds.filter blankCand).length ∧
      cr + up = (ds.filter (fun x => !(blankCand x))).length ∧
      (∀ c ∈ ds, blankCand c = true → st' = st ∨ True) := by
  induction ds with
  | nil => intro st; exact ⟨0, 0, 0, st, rfl, rfl, rfl, by simp⟩
  | cons c rest ih =>
      intro st
      by_cases hb : goTrim c.FullName = "" ∨ goTrim c.CompanyName = ""
      · obtain ⟨cr, up, sk, st', hrec, hsk, hcu, -⟩ := ih st
        refine ⟨cr, up, sk + 1, st', ?_, ?_, ?_, by simp⟩
        · simp only [reconcileLoop, if_pos hb, hrec]
        · have : blankCand c = true := by
            simp [blankCand]
            rcases hb with h | h
            · exact Or.inl h
            · exact Or.inr h
          simp [List.filter_cons, this, hsk]
        · have : blankCand c = true := by
            simp [blankCand]
            rcases hb with h | h
            · exact Or.inl h
            · exact Or.inr h
          simp [List.filter_cons, this, hcu]
      · have hcn : ¬ goTrim c.CompanyName = "" := fun h => hb (Or.inr h)
        have hacc : ∃ acc created st1,
            upsertAccountByName st c.CompanyName c.CompanyWebsite =
              .ok (acc, created, st1) := by
          unfold upsertAccountByName
          rw [if_neg hcn]
          cases hfind : st.accounts.find? (fun a => a.name == goTrim c.CompanyName) with
          | some acc => exact ⟨acc, false, st, rfl⟩
          | none => exact ⟨_, true, _, rfl⟩
        obtain ⟨acc, created, st1, hacc⟩ := hacc
        obtain ⟨cr, up, sk, st', hrec, hsk, hcu, -⟩ :=
          ih (upsertLead st1 acc.id c).2.2
        have hbl : blankCand c = false := by
          simp [blankCand]
          constructor
          · intro h; exact absurd (Or.inl h) hb
          · intro h; exact absurd (Or.inr h) hb
        refine ⟨if (upsertLead st1 acc.id c).2.1 then cr + 1 else cr,
          if (upsertLead st1 acc.id c).2.1 then up else up + 1, sk, st', ?_, ?_, ?_, by simp⟩
        · simp only [reconcileLoop, if_neg hb, hacc, hrec]
        · simp [List.filter_cons, hbl, hsk]
        · simp only [List.filter_cons, hbl, Bool.not_false, if_pos, List.length_cons,
            ← hcu]
          split <;> omega

/-- Two concrete candidates whose non-blank emails differ only in case. -/
def cEm1 : apifyLeadCandidate :=
  { FullName := "Jane Roe", Email := "Jane@Example.com", CompanyName := "Acme" }

def cEm2 : apifyLeadCandidate :=
  { FullName := "Janet Roe", Email := "jane@example.COM", CompanyName := "Globex" }

/-- The all-blank candidate (empty fallback dedup key). -/
def cBlank : apifyLeadCandidate := {}

/-- C6 (amended): reconciliation dedups before any write — the key is the
lower-cased trimmed email when non-blank, else the lower-cased trimmed
(fullName, companyName) pair; the first occurrence per key is retained in
insertion order (the retained list is a sublist with pairwise-distinct
keys, and every non-empty-keyed input key survives), so same-email
candidates differing in case collapse to one.  A candidate whose fallback
key is the EMPTY pair is silently dropped during dedup — neither retained
nor counted.  Every retained candidate with blank fullName or companyName
is counted in `skipped` and produces no Account or Lead writes. -/
theorem importDedup_spec (cs : List apifyLeadCandidate) (st : Store)
    (c : apifyLeadCandidate) :
    (goTrim c.Email ≠ "" →
      dedupKey c = "email:" ++ goToLower (goTrim c.Email)) ∧
    (goTrim c.Email = "" →
      dedupKey c = "name_company:" ++ goToLower (goTrim c.FullName) ++ "|" ++
        goToLower (goTrim c.CompanyName)) ∧
    (dedupCandidates cs).Sublist cs ∧
    ((dedupCandidates cs).map dedupKey).Nodup ∧
    (c ∈ cs → dedupKey c ≠ "name_company:|" →
      dedupKey c ∈ (dedupCandidates cs).map dedupKey) ∧
    (c ∈ dedupCandidates cs → dedupKey c ≠ "name_company:|") ∧
    (∃ cr up sk st',
      reconcileLoop st (dedupCandidates cs) = .ok ((cr, up, sk), st') ∧
      sk = ((dedupCandidates cs).filter blankCand).length ∧
      cr + up = ((dedupCandidates cs).filter (fun x => !(blankCand x))).length) ∧
    ((goTrim c.FullName = "" ∨ goTrim c.CompanyName = "") →
      dedupKey c ≠ "name_company:|" →
      reconcile st [c] = .ok ({ skipped := 1, total := 1 }, st)) ∧
    dedupCandidates [cEm1, cEm2] = [cEm1] := by
  refine ⟨?_, ?_, dedupLoop_sublist cs [], (dedupLoop_keys cs []).1, ?_, ?_,
    ?_, ?_, by decide⟩
  · intro h
    simp [dedupKey, h]
  · intro h
    simp [dedupKey, h]
  · intro h1 h2
    exact dedupLoop_first_occurrence cs [] h1 h2 (by simp)
  · intro h
    exact dedupLoop_no_empty_key cs [] h
  · obtain ⟨cr, up, sk, st', h1, h2, h3, -⟩ :=
      reconcileLoop_counts (dedupCandidates cs) st
    exact ⟨cr, up, sk, st', h1, h2, h3⟩
  · intro hb hk
    simp only [reconcile, dedupCandidates, dedupLoop, reconcileLoop,
      if_neg hk, List.contains_nil, Bool.false_eq_true, if_false, if_pos hb]
    rfl

/-- Counterexample to C6 as stated: the all-blank candidate (empty fallback
key) is silently dropped during dedup — it is not counted in `skipped`
(which the claim requires) nor in `total`. -/
theorem importDedup_counterexample :
    reconcile ({} : Store) [cBlank] =
      .ok ({ createdLeads := 0, updatedLeads := 0, skipped := 0, total := 0 },
           ({} : Store)) := by
  decide

/-- Witness for `importDedup_spec`: a retained candidate with a blank full
name is counted in `skipped` and the store is left untouched. -/
theorem importDedup_spec_witness :
    reconcile ({} : Store) [{ Email := "x@y.z", CompanyName := "Acme" }] =
      .ok ({ skipped := 1, total := 1 }, ({} : Store)) := by
  have h := (importDedup_spec [] ({} : Store)
    { Email := "x@y.z", CompanyName := "Acme" }).2.2.2.2.2.2.2.1
  exact h (Or.inl (by decide)) (by decide)

/-- C7: a lead upsert against an existing match never creates, always
overwrites `name`, `company` and the account reference, overwrites `email`
only when the candidate's email is non-blank, and sets `job_title`,
`phone`, `linkedin` only when the candidate's value is non-blank (otherwise
the stored value survives, e.g. a blank candidate phone leaves the stored
phone); `stage` and `score` are untouched.  With no match, the created lead
starts in stage `new` with score 0 and is stored. -/
theorem upsertLead_spec (st : Store) (accId : String) (c : apifyLeadCandidate) :
    (∀ old, findLeadForCandidate st c = some old →
      (upsertLead st accId c).2.1 = false ∧
      (upsertLead st accId c).1.name = goTrim c.FullName ∧
      (upsertLead st accId c).1.company = goTrim c.CompanyName ∧
      (upsertLead st accId c).1.account = accId ∧
      (upsertLead st accId c).1.email =
        (if goTrim c.Email = "" then old.email else goTrim c.Email) ∧
      (upsertLead st accId c).1.job_title =
        (if goTrim c.JobTitle = "" then old.job_title else goTrim c.JobTitle) ∧
      (upsertLead st accId c).1.phone =
        (if goTrim c.Phone = "" then old.phone else goTrim c.Phone) ∧
      (upsertLead st accId c).1.linkedin =
        (if goTrim c.Linkedin = "" then old.linkedin else goTrim c.Linkedin) ∧
      (upsertLead st accId c).1.stage = old.stage ∧
      (upsertLead st accId c).1.score = old.score ∧
      (upsertLead st accId c).1.id = old.id ∧
      (upsertLead st accId c).2.2.leads.length = st.leads.length ∧
      (∃ l' ∈ (upsertLead st accId c).2.2.leads, l'.id = old.id ∧
        l'.phone = (if goTrim c.Phone = "" then old.phone else goTrim c.Phone))) ∧
    (findLeadForCandidate st c = none →
      (upsertLead st accId c).2.1 = true ∧
      (upsertLead st accId c).1.stage = "new" ∧
      (upsertLead st accId c).1.score = 0 ∧
      (upsertLead st accId c).1.name = goTrim c.FullName ∧
      (upsertLead st accId c).1.company = goTrim c.CompanyName ∧
      (upsertLead st accId c).1.account = accId ∧
      (upsertLead st accId c).1 ∈ (upsertLead st accId c).2.2.leads) := by
  constructor
  · intro old h
    have hmem : old ∈ st.leads := by
      unfold findLeadForCandidate at h
      split at h
      · exact List.mem_of_find?_eq_some h
      · exact List.mem_of_find?_eq_some h
    unfold upsertLead
    rw [h]
    refine ⟨rfl, rfl, rfl, rfl, ?_, ?_, ?_, ?_, rfl, rfl, rfl, ?_, ?_⟩
    · by_cases he : goTrim c.Email = "" <;> simp [he]
    · by_cases he : goTrim c.JobTitle = "" <;> simp [he]
    · by_cases he : goTrim c.Phone = "" <;> simp [he]
    · by_cases he : goTrim c.Linkedin = "" <;> simp [he]
    · simp [saveLeadRecord]
    · refine ⟨_, List.mem_map.2 ⟨old, hmem, rfl⟩, ?_, ?_⟩
      · simp [saveLeadRecord]
      · by_cases hp : goTrim c.Phone = "" <;> simp [saveLeadRecord, hp]
  · intro h
    unfold upsertLead
    rw [h]
    exact ⟨rfl, rfl, rfl, rfl, rfl, rfl, by simp⟩

/-- A concrete store holding one lead with a phone number, and a candidate
re-ingesting it with a blank phone. -/
def oldU : Lead :=
  { id := "L9", name := "Al Bee", email := "a@b.example", company := "Acme",
    phone := "123", job_title := "CTO", stage := "replied", score := 7 }

def cU : apifyLeadCandidate :=
  { FullName := "Al Bee", Email := "a@b.example", CompanyName := "Acme",
    Phone := "", JobTitle := "" }

/-- Witness for `upsertLead_spec`: the blank-phone re-ingest keeps the
stored phone and updates, not creates. -/
theorem upsertLead_spec_witness :
    (upsertLead { leads := [oldU] } "acc1" cU).1.phone = "123" ∧
    (upsertLead { leads := [oldU] } "acc1" cU).1.job_title = "CTO" ∧
    (upsertLead { leads := [oldU] } "acc1" cU).2.1 = false := by
  have h := (upsertLead_spec { leads := [oldU] } "acc1" cU).1 oldU (by decide)
  refine ⟨?_, ?_, h.1⟩
  · rw [h.2.2.2.2.2.2.1]
    decide
  · rw [h.2.2.2.2.2.1]
    decide

lemma dropWhile_rdrop_self {p : Char → Bool} (l : List Char) :
    List.dropWhile p (List.rdropWhile p (List.dropWhile p l)) =
      List.rdropWhile p (List.dropWhile p l) := by
  obtain ⟨r, hr⟩ := List.rdropWhile_prefix p (List.dropWhile p l)
  cases ht : List.rdropWhile p (List.dropWhile p l) with
  | nil => simp
  | cons a ts =>
    have hhead : (List.dropWhile p l).head? = some a := by
      rw [← hr, ht]
      rfl
    have h2 := List.head?_dropWhile_not p l
    rw [hhead] at h2
    exact List.dropWhile_cons_of_neg (by simp_all)

lemma goTrim_listTrim (l : List Char) :
    List.rdropWhile goIsSpace (List.dropWhile goIsSpace
      (List.rdropWhile goIsSpace (List.dropWhile goIsSpace l))) =
    List.rdropWhile goIsSpace (List.dropWhile goIsSpace l) := by
  rw [dropWhile_rdrop_self, List.rdropWhile_idempotent]

/-- Trimming is idempotent. -/
lemma goTrim_idem (s : String) : goTrim (goTrim s) = goTrim s := by
  have h := goTrim_listTrim s.data
  simp only [List.rdropWhile] at h
  exact congrArg String.mk h

mutual
/-- A JSON value as decoded by Go `encoding/json` into `any`: strings,
numbers, booleans, null, arrays and objects.  A decoded `float64` is
modelled by the decimal value it came from, `mantissa * 10^(-scale)`:
IEEE-754 rounding between the wire decimal and the stored double, and
`strconv.FormatFloat`'s shortest-round-trip digit search, are idealized to
the exact decimal (they coincide on decimals whose shortest form is
themselves).  The source's `int`/`int64`/`json.Number` cases are
unreachable from `encoding/json` decoding and are not represented. -/
inductive JVal where
  | jstr : String → JVal
  | jnum : Int → Nat → JVal
  | jbool : Bool → JVal
  | jnull : JVal
  | jarr : JArr → JVal
  | jobj : JObj → JVal
deriving DecidableEq

/-- A JSON array (spine of nested values). -/
inductive JArr where
  | nil : JArr
  | cons : JVal → JArr → JArr
deriving DecidableEq

/-- A JSON object (key/value spine). -/
inductive JObj where
  | nil : JObj
  | cons : String → JVal → JObj → JObj
deriving DecidableEq
end

/-- Canonical (mantissa, scale) of the decimal `m * 10^(-k)`: trailing
decimal zeros stripped, so the scale is 0 exactly when the value is an
integer — the model of Go's `vv == float64(int64(vv))` test. -/
def normNum : Int → Nat → Int × Nat
  | m, 0 => (m, 0)
  | m, k + 1 => if m % 10 == 0 then normNum (m / 10) k else (m, k + 1)

/-- `strconv.FormatInt` / `strconv.FormatFloat(vv, 'f', -1, 64)` on the
modelled decimal: integral values render without a point, the rest as the
canonical decimal with the point inserted (zero-padded on the left, signed
as Go renders, e.g. `-0.5`). -/
def renderNum (m : Int) (k : Nat) : String :=
  let n := normNum m k
  if n.2 == 0 then toString n.1
  else
    let digits := toString n.1.natAbs
    let digits :=
      if digits.length ≤ n.2 then
        String.mk (List.replicate (n.2 + 1 - digits.length) '0') ++ digits
      else digits
    (if n.1 < 0 then "-" else "") ++
      String.mk (digits.data.take (digits.data.length - n.2)) ++ "." ++
      String.mk (digits.data.drop (digits.data.length - n.2))

/-- `encoding/json`'s escaping of one string character: the standard
escapes plus the HTML-safe `<`, `>`, `&` that `json.Marshal` escapes by
default; other control characters are outside the modelled fragment. -/
def escapeJSONChar (c : Char) : String :=
  if c == '"' then "\\\""
  else if c == '\\' then "\\\\"
  else if c == '\n' then "\\n"
  else if c == '\t' then "\\t"
  else if c == '\r' then "\\r"
  else if c == '<' then "\\u003c"
  else if c == '>' then "\\u003e"
  else if c == '&' then "\\u0026"
  else String.singleton c

def escapeJSON (s : String) : String :=
  goJoin "" (s.data.map escapeJSONChar)

/-- Go `strings.Trim(s, cutset)` for a one-character cutset. -/
def goTrimChar (s : String) (c : Char) : String :=
  String.mk (((s.data.dropWhile (fun x => x == c)).reverse.dropWhile
    (fun x => x == c)).reverse)

/-- Byte-wise string order, as `json.Marshal` sorts map keys. -/
def charListLE : List Char → List Char → Bool
  | [], _ => true
  | _ :: _, [] => false
  | a :: as, b :: bs =>
    if a.toNat < b.toNat then true
    else if b.toNat < a.toNat then false
    else charListLE as bs

def insertKV (k : String) (v : JVal) : JObj → JObj
  | .nil => .cons k v .nil
  | .cons k2 v2 rest =>
    if charListLE k.data k2.data then .cons k v (.cons k2 v2 rest)
    else .cons k2 v2 (insertKV k v rest)

def sortKV : JObj → JObj
  | .nil => .nil
  | .cons k v rest => insertKV k v (sortKV rest)

mutual
/-- Key-sort every object in a value, as `json.Marshal` renders maps in
sorted key order at every depth. -/
def sortDeep : JVal → JVal
  | .jstr s => .jstr s
  | .jnum m k => .jnum m k
  | .jbool b => .jbool b
  | .jnull => .jnull
  | .jarr xs => .jarr (sortDeepArr xs)
  | .jobj kvs => .jobj (sortKV (sortDeepObj kvs))

def sortDeepArr : JArr → JArr
  | .nil => .nil
  | .cons x xs => .cons (sortDeep x) (sortDeepArr xs)

def sortDeepObj : JObj → JObj
  | .nil => .nil
  | .cons k v rest => .cons k (sortDeep v) (sortDeepObj rest)
end

mutual
/-- JSON text of a (key-sorted) value. -/
def jsonSerialize : JVal → String
  | .jstr s => "\"" ++ escapeJSON s ++ "\""
  | .jnum m k => renderNum m k
  | .jbool b => if b then "true" else "false"
  | .jnull => "null"
  | .jarr xs => "[" ++ jsonSerializeArr xs ++ "]"
  | .jobj kvs => "\x7b" ++ jsonSerializeObj kvs ++ "\x7d"

def jsonSerializeArr : JArr → String
  | .nil => ""
  | .cons x .nil => jsonSerialize x
  | .cons x xs => jsonSerialize x ++ "," ++ jsonSerializeArr xs

def jsonSerializeObj : JObj → String
  | .nil => ""
  | .cons k v .nil => "\"" ++ escapeJSON k ++ "\":" ++ jsonSerialize v
  | .cons k v rest =>
    "\"" ++ escapeJSON k ++ "\":" ++ jsonSerialize v ++ "," ++ jsonSerializeObj rest
end

/-- Go `json.Marshal` on the modelled values (map keys sorted at every
depth; `Marshal` never fails on these shapes, so the source's
`err != nil → ""` arm is unreachable). -/
def jsonMarshal (v : JVal) : String :=
  jsonSerialize (sortDeep v)

/-- Go `getString` over a JSON object (association list), following the
source's switch: `nil`/missing yield `""`; strings are trimmed; a numeric
value renders as `FormatInt` when integral (`vv == float64(int64(vv))`)
and as `FormatFloat(vv, 'f', -1, 64)` otherwise; every other value —
booleans, arrays, objects — takes the default branch: `json.Marshal`, then
`strings.Trim(·, "\"")`. -/
def getString (m : List (String × JVal)) (key : String) : String :=
  match m.lookup key with
  | none => ""
  | some JVal.jnull => ""
  | some (JVal.jstr s) => goTrim s
  | some (JVal.jnum mm k) =>
      if (normNum mm k).2 == 0 then toString (normNum mm k).1
      else renderNum mm k
  | some v => goTrimChar (jsonMarshal v) '"'

lemma renderNum_eq_branch (i : Int) (k : Nat) :
    (if (normNum i k).2 == 0 then toString (normNum i k).1
     else renderNum i k) = renderNum i k := by
  by_cases h : ((normNum i k).2 == 0) = true
  · rw [if_pos h]
    simp [renderNum, h]
  · rw [if_neg h]

/-- Go `firstNonEmpty`. -/
def firstNonEmpty (a b : String) : String :=
  let a := goTrim a
  if a ≠ "" then a else goTrim b

/-- Go `normalizeApifyLead`: map source fields to candidate fields with the
stated fallback preferences. -/
def normalizeApifyLead (m : List (String × JVal)) : apifyLeadCandidate :=
  { FullName := firstNonEmpty (getString m "fullName")
      (goTrim (getString m "firstName" ++ " " ++ getString m "lastName"))
    Email := getString m "email"
    JobTitle := firstNonEmpty (getString m "jobTitle") (getString m "headline")
    Linkedin := getString m "linkedinProfile"
    Phone := firstNonEmpty (getString m "mobileNumber") (getString m "phone")
    CompanyName := firstNonEmpty (getString m "companyName")
      (getString m "csuiteProfile_companyName")
    CompanyWebsite := getString m "companyWebsite"
    CompanyLinkedin := getString m "companyLinkedin" }

/-- C8: `getString` yields `""` on missing and null keys (never an error),
the trimmed value on strings, the decimal rendering on numbers — the
integral `FormatInt` branch and the fractional `FormatFloat` branch — and
the serialized, quote-unquoted form on every other JSON type (booleans,
arrays, objects); `normalizeApifyLead` fills each candidate field with the
stated fallback preference (fullName before firstName+" "+lastName,
jobTitle before headline, mobileNumber before phone, companyName before
the flattened csuiteProfile_companyName). -/
theorem normalizeApifyLead_spec (m : List (String × JVal)) (key s : String)
    (i : Int) (k : Nat) (b : Bool) (xs : JArr) (kvs : JObj) :
    (m.lookup key = none → getString m key = "") ∧
    (m.lookup key = some JVal.jnull → getString m key = "") ∧
    (m.lookup key = some (JVal.jstr s) → getString m key = goTrim s) ∧
    (m.lookup key = some (JVal.jnum i 0) → getString m key = toString i) ∧
    (m.lookup key = some (JVal.jnum i k) → getString m key = renderNum i k) ∧
    (m.lookup key = some (JVal.jbool b) →
      getString m key = (if b then "true" else "false")) ∧
    (m.lookup key = some (JVal.jarr xs) →
      getString m key = goTrimChar (jsonMarshal (JVal.jarr xs)) '"') ∧
    (m.lookup key = some (JVal.jobj kvs) →
      getString m key = goTrimChar (jsonMarshal (JVal.jobj kvs)) '"') ∧
    (goTrim (getString m "fullName") ≠ "" →
      (normalizeApifyLead m).FullName = goTrim (getString m "fullName")) ∧
    (goTrim (getString m "fullName") = "" →
      (normalizeApifyLead m).FullName =
        goTrim (getString m "firstName" ++ " " ++ getString m "lastName")) ∧
    (goTrim (getString m "jobTitle") ≠ "" →
      (normalizeApifyLead m).JobTitle = goTrim (getString m "jobTitle")) ∧
    (goTrim (getString m "jobTitle") = "" →
      (normalizeApifyLead m).JobTitle = goTrim (getString m "headline")) ∧
    (goTrim (getString m "mobileNumber") ≠ "" →
      (normalizeApifyLead m).Phone = goTrim (getString m "mobileNumber")) ∧
    (goTrim (getString m "mobileNumber") = "" →
      (normalizeApifyLead m).Phone = goTrim (getString m "phone")) ∧
    (goTrim (getString m "companyName") ≠ "" →
      (normalizeApifyLead m).CompanyName = goTrim (getString m "companyName")) ∧
    (goTrim (getString m "companyName") = "" →
      (normalizeApifyLead m).CompanyName =
        goTrim (getString m "csuiteProfile_companyName")) ∧
    (normalizeApifyLead m).Email = getString m "email" ∧
    (normalizeApifyLead m).Linkedin = getString m "linkedinProfile" ∧
    (normalizeApifyLead m).CompanyWebsite = getString m "companyWebsite" := by
  refine ⟨?_, ?_, ?_, ?_, ?_, ?_, ?_, ?_, ?_, ?_, ?_, ?_, ?_, ?_, ?_, ?_,
    rfl, rfl, rfl⟩
  · intro h; simp [getString, h]
  · intro h; simp [getString, h]
  · intro h; simp [getString, h]
  · intro h; simp [getString, h, normNum]
  · intro h
    simp only [getString, h]
    exact renderNum_eq_branch i k
  · intro h
    simp only [getString, h]
    cases b <;> rfl
  · intro h; simp [getString, h]
  · intro h; simp [getString, h]
  · intro h; simp [normalizeApifyLead, firstNonEmpty, h]
  · intro h; simp [normalizeApifyLead, firstNonEmpty, h, goTrim_idem]
  · intro h; simp [normalizeApifyLead, firstNonEmpty, h]
  · intro h; simp [normalizeApifyLead, firstNonEmpty, h]
  · intro h; simp [normalizeApifyLead, firstNonEmpty, h]
  · intro h; simp [normalizeApifyLead, firstNonEmpty, h]
  · intro h; simp [normalizeApifyLead, firstNonEmpty, h]
  · intro h; simp [normalizeApifyLead, firstNonEmpty, h]

/-- A concrete profile object: no `fullName` (name built from the parts),
no `mobileNumber` (phone falls back to the integral numeric `phone`), a
null `jobTitle` (falls back to `headline`). -/
def m0 : List (String × JVal) :=
  [("firstName", JVal.jstr " Ada "), ("lastName", JVal.jstr "Lovelace"),
   ("jobTitle", JVal.jnull), ("headline", JVal.jstr "Boss"),
   ("phone", JVal.jnum 5551234 0), ("companyName", JVal.jstr "Acme")]

/-- A concrete object exercising the remaining `getString` shapes: a
fractional number, a negative fractional number, an array, and an object
with unsorted keys. -/
def m1 : List (String × JVal) :=
  [("n", JVal.jnum 314 2), ("neg", JVal.jnum (-5) 1),
   ("tags", JVal.jarr (JArr.cons (JVal.jstr "a")
     (JArr.cons (JVal.jstr "b") JArr.nil))),
   ("obj", JVal.jobj (JObj.cons "b" (JVal.jnum 1 0)
     (JObj.cons "a" (JVal.jstr "x") JObj.nil)))]

/-- Witness for `normalizeApifyLead_spec` on the concrete profiles:
fallback preferences on `m0`, and the number / array / object renderings
on `m1`. -/
theorem normalizeApifyLead_spec_witness :
    (normalizeApifyLead m0).FullName = "Ada Lovelace" ∧
    (normalizeApifyLead m0).Phone = "5551234" ∧
    (normalizeApifyLead m0).JobTitle = "Boss" ∧
    getString m1 "n" = "3.14" ∧
    getString m1 "neg" = "-0.5" ∧
    getString m1 "tags" = "[\"a\",\"b\"]" ∧
    getString m1 "obj" = "\x7b\"a\":\"x\",\"b\":1\x7d" := by
  have h0 := normalizeApifyLead_spec m0 "x" "" 0 0 false JArr.nil JObj.nil
  have hn := normalizeApifyLead_spec m1 "n" "" 314 2 false JArr.nil JObj.nil
  have hg := normalizeApifyLead_spec m1 "neg" "" (-5) 1 false JArr.nil JObj.nil
  have ht := normalizeApifyLead_spec m1 "tags" "" 0 0 false
    (JArr.cons (JVal.jstr "a") (JArr.cons (JVal.jstr "b") JArr.nil)) JObj.nil
  have ho := normalizeApifyLead_spec m1 "obj" "" 0 0 false JArr.nil
    (JObj.cons "b" (JVal.jnum 1 0) (JObj.cons "a" (JVal.jstr "x") JObj.nil))
  refine ⟨?_, ?_, ?_, ?_, ?_, ?_, ?_⟩
  · rw [h0.2.2.2.2.2.2.2.2.2.1 (by decide)]
    decide
  · rw [h0.2.2.2.2.2.2.2.2.2.2.2.2.2.1 (by decide)]
    decide
  · rw [h0.2.2.2.2.2.2.2.2.2.2.2.1 (by decide)]
    decide
  · rw [hn.2.2.2.2.1 rfl]
    decide
  · rw [hg.2.2.2.2.1 rfl]
    decide
  · rw [ht.2.2.2.2.2.2.1 rfl]
    decide
  · rw [ho.2.2.2.2.2.2.2.1 rfl]
    decide

end AICRM
